import Mathlib

/-
  Verification development for the Instagram scraper repository.
  The definitions below are a shallow embedding of src/main.py
  (class InstagramScraper).  Python dicts become ordered association
  lists, JSON values become the inductive type JVal, the external
  extractor (src/advanced_graphql_extractor.py, an external collaborator
  in the design) is modelled as an oracle supplying one outcome per
  extraction call, and Python ints are modelled as Int/Nat with exact
  arithmetic.  Link objects inside bio_links are opaque to main.py and
  are kept as plain strings.
-/

set_option maxHeartbeats 1000000
set_option maxRecDepth 10000

/-- JSON-like values stored in a canonical entry. -/
inductive JVal where
  | null : JVal
  | str : String → JVal
  | bool : Bool → JVal
  | int : Int → JVal
  | jlist : List String → JVal
deriving DecidableEq

/-- A canonical entry is an ordered Python dict: keys are unique in every
dict the scraper builds, and insertion order is preserved. -/
abbrev Entry := List (String × JVal)

/-- Python dict lookup, dict.get k: the value of the first (and in the
scraper the only) pair carrying the key. -/
def getVal : Entry → String → Option JVal
  | [], _ => none
  | (k₀, v) :: rest, k => if k₀ = k then some v else getVal rest k

/-- Python dict assignment d[k] = v: overwrite in place when the key is
present (keys are unique), append at the end otherwise. -/
def setVal : Entry → String → JVal → Entry
  | [], k, v => [(k, v)]
  | (k₀, w) :: rest, k, v =>
    if k₀ = k then (k, v) :: rest else (k₀, w) :: setVal rest k v

/-- Python truthiness of an optional dict value: None, null, 0, the empty
string and the empty list are falsy. -/
def truthyJ : Option JVal → Bool
  | none => false
  | some JVal.null => false
  | some (JVal.str s) => s != ""
  | some (JVal.bool b) => b
  | some (JVal.int n) => n != 0
  | some (JVal.jlist l) => !l.isEmpty

/-- The three business fields of src/main.py lines 204 and 230. -/
def businessFields : List String :=
  ["business_email", "business_phone_number", "business_category_name"]

/-- Final cleanup of src/main.py lines 219 and 245: drop every pair whose
value is None unless its key is a business field. -/
def dropNulls (e : Entry) : Entry :=
  e.filter fun p => decide (¬ p.2 = JVal.null ∨ p.1 ∈ businessFields)

/- ------------------------------------------------------------------
   Count formatting, src/main.py lines 374 to 388 (_format_count).
   The Python one-decimal float rendering (f-string :.1f) is embedded
   as exact rounding of the quotient to one decimal digit, ties to
   even, matching the rendering away from representation boundaries.
   ------------------------------------------------------------------ -/

/-- Round num/den to the nearest integer, ties to even. -/
def roundHalfEven (num den : Nat) : Nat :=
  let q := num / den
  let r := num % den
  if 2 * r < den then q
  else if den < 2 * r then q + 1
  else if q % 2 = 0 then q else q + 1

/-- Decimal digits of a natural number, most significant first; fuel-based
structural recursion (any fuel above the value is adequate). -/
def natCharsAux : Nat → Nat → List Char
  | 0, _ => []
  | fuel + 1, n =>
    if n < 10 then [Nat.digitChar n]
    else natCharsAux fuel (n / 10) ++ [Nat.digitChar (n % 10)]

/-- Decimal digits of a natural number, most significant first. -/
def natChars (n : Nat) : List Char := natCharsAux (n + 1) n

/-- Decimal text of an integer, as Python str(int). -/
def intChars (i : Int) : List Char :=
  if i < 0 then '-' :: natChars i.natAbs else natChars i.toNat

/-- Python str.replace applied with pattern ".0" and empty replacement:
remove every non-overlapping occurrence, left to right. -/
def stripDotZero : List Char → List Char
  | [] => []
  | [c] => [c]
  | c :: d :: rest =>
    if c = '.' ∧ d = '0' then stripDotZero rest
    else c :: stripDotZero (d :: rest)

/-- One branch of _format_count: render n/den with one decimal digit,
append the suffix, then apply the ".0" replacement. -/
def fmt1 (n den : Nat) (sfx : Char) : String :=
  let q := roundHalfEven (n * 10) den
  String.mk (stripDotZero (natChars (q / 10) ++ '.' :: Nat.digitChar (q % 10) :: [sfx]))

/-- src/main.py lines 380 to 386: the integer path of _format_count. -/
def formatCountInt (c : Int) : String :=
  if (1000000 : Int) ≤ c then fmt1 c.toNat 1000000 'M'
  else if (1000 : Int) ≤ c then fmt1 c.toNat 1000 'K'
  else String.mk (intChars c)

/-- src/main.py lines 376 to 377: None maps to None, otherwise format. -/
def formatCount : Option Int → Option String
  | none => none
  | some c => some (formatCountInt c)

/-- Modelled from the spec words of the formatter claim: the count divided
by the unit rendered with exactly one decimal digit followed by the
suffix, with a trailing ".0" removed.  Used only to compare against the
code-derived formatCountInt. -/
def specAbbrev (n den : Nat) (sfx : Char) : String :=
  let q := roundHalfEven (n * 10) den
  if q % 10 = 0 then String.mk (natChars (q / 10) ++ [sfx])
  else String.mk (natChars (q / 10) ++ '.' :: Nat.digitChar (q % 10) :: [sfx])

/-- Modelled from the spec words: abbreviated M form above one million,
K form in [1000, 1000000), plain decimal text below 1000. -/
def specFormatCount (c : Int) : String :=
  if (1000000 : Int) ≤ c then specAbbrev c.toNat 1000000 'M'
  else if (1000 : Int) ≤ c then specAbbrev c.toNat 1000 'K'
  else String.mk (intChars c)

/- ------------------------------------------------------------------
   Python or-chains over optional values (truthiness based).
   ------------------------------------------------------------------ -/

/-- Truthiness of an optional string: None and the empty string are falsy. -/
def truthyStr : Option String → Bool
  | none => false
  | some s => s != ""

/-- Truthiness of an optional integer: None and 0 are falsy. -/
def truthyInt : Option Int → Bool
  | none => false
  | some n => n != 0

/-- Truthiness of an optional boolean: None and False are falsy. -/
def truthyBool : Option Bool → Bool
  | none => false
  | some b => b

/-- Python a or b on optional strings: a when truthy, otherwise b as is. -/
def orStr (a b : Option String) : Option String :=
  if truthyStr a then a else b

/-- Python a or b on optional integers: a when truthy, otherwise b as is. -/
def orInt (a b : Option Int) : Option Int :=
  if truthyInt a then a else b

/- ------------------------------------------------------------------
   The email regex of src/main.py lines 214 and 240:
     \b[A-Za-z0-9._%+-]+@[A-Za-z0-9.-]+\.[A-Z|a-z]{2,}\b
   embedded as an explicit leftmost-greedy backtracking matcher.
   Word characters are modelled over the ASCII repertoire (the character
   classes of the pattern itself are ASCII).  Note the class [A-Z|a-z]
   contains the literal bar character.
   ------------------------------------------------------------------ -/

/-- ASCII word character, the regex \b notion: letter, digit or underscore. -/
def isWordChar (c : Char) : Bool := c.isAlpha || c.isDigit || c = '_'

/-- The local-part class [A-Za-z0-9._%+-]. -/
def emailLocalChar (c : Char) : Bool :=
  c.isAlpha || c.isDigit || c = '.' || c = '_' || c = '%' || c = '+' || c = '-'

/-- The domain class [A-Za-z0-9.-]. -/
def emailDomainChar (c : Char) : Bool :=
  c.isAlpha || c.isDigit || c = '.' || c = '-'

/-- The code TLD class [A-Z|a-z]: inside a character class the bar is a
literal, so the class is the letters together with the bar character. -/
def tldCharCode (c : Char) : Bool := c.isAlpha || c = '|'

/-- Modelled from the spec words of the backfill claim: a 2+ letter TLD,
letters only.  Used only to compare against the code class. -/
def tldCharSpec (c : Char) : Bool := c.isAlpha

/-- Length of the maximal prefix of the list inside the class. -/
def countWhile (p : Char → Bool) : List Char → Nat
  | [] => 0
  | c :: rest => if p c then countWhile p rest + 1 else 0

/-- Word-character test of an optional character; out of string is non-word. -/
def wordOpt : Option Char → Bool
  | none => false
  | some c => isWordChar c

/-- The \b assertion between two adjacent positions. -/
def isBoundary (a b : Option Char) : Bool := wordOpt a != wordOpt b

/-- Greedy match of the trailing TLD segment: try the given length first,
shrink while the closing word boundary fails; at least two characters. -/
def tryTld (l₃ : List Char) : Nat → Option Nat
  | 0 => none
  | 1 => none
  | (k + 2) =>
    if isBoundary l₃[k + 1]? l₃[k + 2]? then some (k + 2)
    else tryTld l₃ (k + 1)

/-- Backtracking over the dot splitting domain and TLD: kb counts the
characters the domain class consumes before the literal dot; candidates
are tried longest first, exactly as the regex engine backtracks. -/
def tryDot (tld : Char → Bool) (l₂ : List Char) : Nat → Option (Nat × Nat)
  | 0 => none
  | (k + 1) =>
    if l₂[k + 1]? = some '.' then
      match tryTld (l₂.drop (k + 2)) (countWhile tld (l₂.drop (k + 2))) with
      | some kc => some (k + 1, kc)
      | none => tryDot tld l₂ k
    else tryDot tld l₂ k

/-- Match the whole pattern at the current position (prev is the character
just before it); returns the matched length.  The local part cannot
backtrack usefully because the at-sign is outside its class. -/
def matchHere (tld : Char → Bool) (prev : Option Char) (l : List Char) : Option Nat :=
  if isBoundary prev l.head? then
    let ma := countWhile emailLocalChar l
    if ma = 0 then none
    else if l[ma]? = some '@' then
      let l₂ := l.drop (ma + 1)
      match tryDot tld l₂ (countWhile emailDomainChar l₂) with
      | some (kb, kc) => some (ma + 1 + kb + 1 + kc)
      | none => none
    else none
  else none

/-- re.search: try each start position from the left, first success wins. -/
def searchEmailAux (tld : Char → Bool) (prev : Option Char) : List Char → Option (List Char)
  | [] => none
  | c :: rest =>
    match matchHere tld prev (c :: rest) with
    | some n => some ((c :: rest).take n)
    | none => searchEmailAux tld (some c) rest

/-- The code regex search over a biography string. -/
def emailSearch (bio : String) : Option String :=
  (searchEmailAux tldCharCode none bio.data).map fun l => String.mk l

/-- Modelled from the spec words: the same search with a letters-only TLD
class.  Used only to compare against the code search. -/
def emailSearchSpec (bio : String) : Option String :=
  (searchEmailAux tldCharSpec none bio.data).map fun l => String.mk l

/- ------------------------------------------------------------------
   The raw multi-source extraction result consumed by the reconciler.
   Fields read with dict.get and no default are one-level options (a key
   present with value None is indistinguishable from an absent key);
   fields read with an explicit default are two-level options, the outer
   level being key presence.
   ------------------------------------------------------------------ -/

structure UserData where
  full_name : Option String := none
  username : Option String := none
  followers_count : Option Int := none
  following_count : Option Int := none
  biography : Option (Option String) := none
  bio_links : Option (Option (List String)) := none
  is_private : Option (Option Bool) := none
  is_verified : Option (Option Bool) := none
  is_business_account : Option (Option Bool) := none
  is_professional_account : Option (Option Bool) := none
  business_email : Option String := none
  business_phone_number : Option String := none
  business_category_name : Option String := none
deriving DecidableEq

structure MetaData where
  username : Option String := none
  username_from_title : Option String := none
  likes_count : Option Int := none
  comments_count : Option Int := none
  post_date : Option String := none
  caption : Option String := none
  content_type : Option String := none
deriving DecidableEq

structure ScriptData where
  username : Option String := none
  likes : Option Int := none
  comments : Option Int := none
  caption : Option String := none
  is_video : Option Bool := none
  video_url : Option String := none
deriving DecidableEq

/-- The per-URL result bundle returned by extract_graphql_data, as consumed
by src/main.py.  Captured network responses are opaque payload texts; the
reconciler never reads them. -/
structure Extracted where
  user_data : UserData := {}
  meta_data : MetaData := {}
  script_data : ScriptData := {}
  captured_responses : List String := []
deriving DecidableEq

/-- Outcome of one extract_graphql_data call: a result with a truthy error
field, a raised exception, or a usable result. -/
inductive FetchOutcome where
  | ok : Extracted → FetchOutcome
  | err : String → FetchOutcome
  | raised : String → FetchOutcome
deriving DecidableEq

/- ------------------------------------------------------------------
   Entry builders, src/main.py lines 130 to 169 and 185 to 201.
   ------------------------------------------------------------------ -/

/-- An optional string as a stored dict value. -/
def optStrJ : Option String → JVal
  | none => JVal.null
  | some s => JVal.str s

/-- The count formatter applied to an optional count, stored as a dict
value. -/
def optIntFmt (c : Option Int) : JVal :=
  match formatCount c with
  | none => JVal.null
  | some s => JVal.str s

/-- dict.get with an explicit default: absent key gives the default, a key
present with value None gives None, otherwise the converted value. -/
def d2 {α : Type} (f : Option (Option α)) (dflt : JVal) (conv : α → JVal) : JVal :=
  match f with
  | none => dflt
  | some none => JVal.null
  | some (some v) => conv v

/-- An optional string as an optional final-entry value: null is omitted. -/
def keepStr : Option String → Option JVal
  | none => none
  | some s => some (JVal.str s)

/-- The username resolution of src/main.py lines 159 to 161, right to left
as the Python or-chain associates. -/
def resolvedU (d : Extracted) : Option String :=
  orStr d.meta_data.username (orStr d.meta_data.username_from_title d.script_data.username)

/-- The profile dict as literally written in src/main.py lines 130 to 152
(and identically at lines 185 to 201 for a chained profile). -/
def profileRaw (url : String) (ud : UserData) : Entry :=
  [("url", JVal.str url),
   ("content_type", JVal.str "profile"),
   ("full_name", optStrJ ud.full_name),
   ("username", optStrJ ud.username),
   ("followers_count", optIntFmt ud.followers_count),
   ("following_count", optIntFmt ud.following_count),
   ("biography", d2 ud.biography (JVal.str "") JVal.str),
   ("bio_links", d2 ud.bio_links (JVal.jlist []) JVal.jlist),
   ("is_private", d2 ud.is_private (JVal.bool false) JVal.bool),
   ("is_verified", d2 ud.is_verified (JVal.bool false) JVal.bool),
   ("is_business_account", d2 ud.is_business_account (JVal.bool false) JVal.bool),
   ("is_professional_account", d2 ud.is_professional_account (JVal.bool true) JVal.bool),
   ("business_email", optStrJ ud.business_email),
   ("business_phone_number", optStrJ ud.business_phone_number),
   ("business_category_name", optStrJ ud.business_category_name)]

/-- The article/video dict of src/main.py lines 130 to 169. -/
def articleRaw (url ct : String) (d : Extracted) : Entry :=
  [("url", JVal.str url),
   ("content_type", JVal.str ct),
   ("likes_count", optIntFmt (orInt d.meta_data.likes_count d.script_data.likes)),
   ("comments_count", optIntFmt (orInt d.meta_data.comments_count d.script_data.comments)),
   ("username", optStrJ (resolvedU d)),
   ("post_date", optStrJ d.meta_data.post_date),
   ("caption", optStrJ (orStr d.meta_data.caption d.script_data.caption))]

/- ------------------------------------------------------------------
   The cleanup pipeline applied to every entry before it is appended:
   src/main.py lines 229 to 245 (and 203 to 219 for chained profiles).
   ------------------------------------------------------------------ -/

/-- One round of the business-field loop: insert None when the key is
absent, replace an empty string by None. -/
def normField (f : String) (e : Entry) : Entry :=
  match getVal e f with
  | none => setVal e f JVal.null
  | some v => if v = JVal.str "" then setVal e f JVal.null else e

/-- The business-field loop over its three fields in order. -/
def normalizeBusiness (e : Entry) : Entry :=
  normField "business_category_name"
    (normField "business_phone_number" (normField "business_email" e))

/-- src/main.py lines 237 to 242: when business_email is falsy and the
biography is a truthy string, search it and store the first regex match.
The builders only ever store strings or None under the biography key. -/
def backfillEmail (e : Entry) : Entry :=
  if truthyJ (getVal e "business_email") then e
  else
    match getVal e "biography" with
    | some (JVal.str b) =>
      if b ≠ "" then
        match emailSearch b with
        | some m => setVal e "business_email" (JVal.str m)
        | none => e
      else e
    | _ => e

/-- The full per-entry cleanup: business defaults, email backfill, null
removal. -/
def finalizeEntry (e : Entry) : Entry :=
  dropNulls (backfillEmail (normalizeBusiness e))

/- ------------------------------------------------------------------
   Content type derivation, src/main.py lines 359 to 372.
   ------------------------------------------------------------------ -/

/-- needle occurs as a contiguous sublist of hay. -/
def containsSub (hay needle : List Char) : Bool :=
  match hay with
  | [] => needle.isEmpty
  | c :: rest => needle.isPrefixOf (c :: rest) || containsSub rest needle

/-- The Python substring test, sub in s. -/
def hasSub (s sub : String) : Bool := containsSub s.data sub.data

/-- The video-marker disjunction of src/main.py lines 365 to 367. -/
def hasVideoMarker (d : Extracted) : Bool :=
  (d.meta_data.content_type == some "video")
    || truthyBool d.script_data.is_video
    || truthyStr d.script_data.video_url

/-- The content type derivation of src/main.py lines 359 to 372. -/
def determineContentType (url : String) (d : Extracted) : String :=
  if hasSub url "/reel/" then "video"
  else if hasSub url "/p/" then
    if hasVideoMarker d then "video" else "article"
  else "profile"

/- ------------------------------------------------------------------
   The per-URL loop, src/main.py lines 108 to 258.  The state carries
   the accumulated data, errors and the processed-usernames set; the
   chained field is instrumentation recording, in order, the usernames
   for which a chained profile entry was appended at line 220.
   ------------------------------------------------------------------ -/

structure ErrRec where
  url : String
  error : String
  index : Nat
deriving DecidableEq

structure CoreState where
  data : List Entry
  processed : List String
  chained : List String
deriving DecidableEq

/-- The chained profile URL of src/main.py line 178. -/
def profileUrlOf (u : String) : String := "https://www.instagram.com/" ++ u ++ "/"

/-- src/main.py lines 172 to 227: when a truthy username has not been seen
this run, record it and attempt the chained profile extraction; on a
usable result append the chained profile entry, on an error result or a
raised exception append nothing and continue. -/
def chainAttempt (chain : String → FetchOutcome) (cs : CoreState) (uname : Option String) : CoreState :=
  match uname with
  | none => cs
  | some u =>
    if u ≠ "" ∧ u ∉ cs.processed then
      match chain u with
      | FetchOutcome.ok pd =>
        { data := cs.data ++ [finalizeEntry (profileRaw (profileUrlOf u) pd.user_data)],
          processed := cs.processed ++ [u],
          chained := cs.chained ++ [u] }
      | _ => { cs with processed := cs.processed ++ [u] }
    else cs

/-- The data/processed part of one loop iteration, src/main.py lines 113
to 248: an error result or a raised exception contributes nothing here;
a usable result appends its entry (for articles and videos after the
chain attempt, whose profile entry is appended first, as at line 220). -/
def coreStep (chain : String → FetchOutcome) (cs : CoreState) (url : String) (oc : FetchOutcome) : CoreState :=
  match oc with
  | FetchOutcome.err _ => cs
  | FetchOutcome.raised _ => cs
  | FetchOutcome.ok d =>
    let ct := determineContentType url d
    if ct = "profile" then
      { cs with data := cs.data ++ [finalizeEntry (profileRaw url d.user_data)] }
    else
      let cs₁ := chainAttempt chain cs (resolvedU d)
      { cs₁ with data := cs₁.data ++ [finalizeEntry (articleRaw url ct d)] }

def coreLoop (chain : String → FetchOutcome) (cs : CoreState) : List (String × FetchOutcome) → CoreState
  | [] => cs
  | (url, oc) :: rest => coreLoop chain (coreStep chain cs url oc) rest

def initCore : CoreState := { data := [], processed := [], chained := [] }

/-- The error record appended for one URL, src/main.py lines 117 to 125
and 250 to 258: the offending URL, the error text and the 1-based index. -/
def errStep (url : String) (oc : FetchOutcome) (i : Nat) : List ErrRec :=
  match oc with
  | FetchOutcome.ok _ => []
  | FetchOutcome.err m => [⟨url, m, i⟩]
  | FetchOutcome.raised m => [⟨url, m, i⟩]

/-- The expected error list of a whole run, indices starting at 1. -/
def expectedErrors : Nat → List (String × FetchOutcome) → List ErrRec
  | _, [] => []
  | i, p :: rest => errStep p.1 p.2 i ++ expectedErrors (i + 1) rest

structure ScrapeState where
  data : List Entry
  errors : List ErrRec
  processed : List String
  chained : List String
deriving DecidableEq

/-- One full loop iteration including error recording. -/
def processUrl (chain : String → FetchOutcome) (st : ScrapeState) (i : Nat) (url : String) (oc : FetchOutcome) : ScrapeState :=
  let cs := coreStep chain ⟨st.data, st.processed, st.chained⟩ url oc
  ⟨cs.data, st.errors ++ errStep url oc i, cs.processed, cs.chained⟩

def runLoopAux (chain : String → FetchOutcome) (st : ScrapeState) (i : Nat) : List (String × FetchOutcome) → ScrapeState
  | [] => st
  | (url, oc) :: rest => runLoopAux chain (processUrl chain st i url oc) (i + 1) rest

/-- The loop over the input URLs, each paired with the outcome the
extractor returns for it; the chain oracle serves the chained profile
fetches (each username is fetched at most once). -/
def scrapeState (inputs : List (String × FetchOutcome)) (chain : String → FetchOutcome) : ScrapeState :=
  runLoopAux chain ⟨[], [], [], []⟩ 1 inputs

/- ------------------------------------------------------------------
   Summary statistics, src/main.py lines 271 to 291, and the returned
   result dict, lines 319 to 326 (the non-critical path; only a failure
   outside the per-URL loop takes the critical path).  Wall-clock
   durations are external inputs, carried as exact rationals.
   ------------------------------------------------------------------ -/

inductive SVal where
  | nat : Nat → SVal
  | rat : Rat → SVal
  | breakdown : List (String × Nat) → SVal
deriving DecidableEq

def lookupS : List (String × SVal) → String → Option SVal
  | [], _ => none
  | (k₀, v) :: rest, k => if k₀ = k then some v else lookupS rest k

def lookupNat : List (String × Nat) → String → Option Nat
  | [], _ => none
  | (k₀, v) :: rest, k => if k₀ = k then some v else lookupNat rest k

/-- content_types[ct] = content_types.get(ct, 0) + 1 on an ordered dict. -/
def bump : List (String × Nat) → String → List (String × Nat)
  | [], k => [(k, 1)]
  | (k₀, n) :: rest, k =>
    if k₀ = k then (k₀, n + 1) :: rest else (k₀, n) :: bump rest k

/-- entry.get with default, src/main.py line 278; every entry the scraper
builds stores a string here. -/
def ctypeOf (e : Entry) : String :=
  match getVal e "content_type" with
  | some (JVal.str s) => s
  | _ => "unknown"

/-- The content-type breakdown accumulated over the output data in order. -/
def countTypes (data : List Entry) : List (String × Nat) :=
  data.foldl (fun m e => bump m (ctypeOf e)) []

/-- The summary dict of src/main.py lines 281 to 291. -/
def mkSummary (inputs : List (String × FetchOutcome)) (st : ScrapeState) (totalTime : Rat) : List (String × SVal) :=
  let n := inputs.length
  [("total_original_urls", SVal.nat n),
   ("additional_profiles_extracted", SVal.nat st.processed.length),
   ("total_extractions", SVal.nat st.data.length),
   ("successful_extractions", SVal.nat st.data.length),
   ("failed_extractions", SVal.nat st.errors.length),
   ("success_rate", SVal.rat (if n = 0 then 0 else ((st.data.length : Rat) / (n : Rat)) * 100)),
   ("total_time_seconds", SVal.rat totalTime),
   ("average_time_per_url", SVal.rat (if n = 0 then 0 else totalTime / (n : Rat))),
   ("content_type_breakdown", SVal.breakdown (countTypes st.data))]

structure ScrapeResult where
  success : Bool
  data : List Entry
  summary : List (String × SVal)
  errors : List ErrRec
deriving DecidableEq

/-- InstagramScraper.scrape on the non-critical path: the empty-input
early return of lines 65 to 72, otherwise the per-URL loop followed by
the summary and the result dict of lines 319 to 326. -/
def scrapeRun (inputs : List (String × FetchOutcome)) (chain : String → FetchOutcome) (totalTime : Rat) : ScrapeResult :=
  if inputs.isEmpty then ⟨false, [], [], []⟩
  else
    let st := scrapeState inputs chain
    ⟨st.errors.isEmpty, st.data, mkSummary inputs st totalTime, st.errors⟩

/- ------------------------------------------------------------------
   Predicates used by the claims.
   ------------------------------------------------------------------ -/

def isOkOutcome : FetchOutcome → Bool
  | FetchOutcome.ok _ => true
  | _ => false

def okInput (p : String × FetchOutcome) : Bool := isOkOutcome p.2

/-- The input triggers the chain logic for username u: a usable result
whose content type is article or video and whose resolved username is
the truthy u. -/
def isTrigger (u : String) (p : String × FetchOutcome) : Bool :=
  match p.2 with
  | FetchOutcome.ok d =>
    decide (determineContentType p.1 d ≠ "profile")
      && (resolvedU d == some u) && (u != "")
  | _ => false

/- ------------------------------------------------------------------
   Concrete fixtures for witnesses and counterexamples.
   ------------------------------------------------------------------ -/

def urlReel : String := "https://www.instagram.com/reel/abc/"
def urlPost : String := "https://www.instagram.com/p/abc/"
def urlPost2 : String := "https://www.instagram.com/p/def/"
def urlProf : String := "https://www.instagram.com/alice/"

def dEmpty : Extracted := {}

/-- Meta likes 0, script likes 7: the meta value is non-null but falsy. -/
def dZeroLikes : Extracted :=
  { meta_data := { likes_count := some 0 }, script_data := { likes := some 7 } }

/-- The same sources with a captured network payload present. -/
def dZeroLikesResp : Extracted :=
  { dZeroLikes with captured_responses := ["payload with likes 9"] }

/-- An article result resolving to the username alice. -/
def dArt : Extracted := { meta_data := { username := some "alice" } }

/-- A biography whose first code-pattern match has a bar in the TLD while
the first letters-only match is a later substring. -/
def bioBar : String := "x@y.a|bc z@w.de"

def udBioBar : UserData := { biography := some (some bioBar) }

def udPlainBio : UserData := { biography := some (some "mail me at a@b.co ok") }

def chainOk : String → FetchOutcome := fun _ => FetchOutcome.ok {}
def chainFail : String → FetchOutcome := fun _ => FetchOutcome.err "boom"

def inputsProf : List (String × FetchOutcome) := [(urlProf, FetchOutcome.ok dEmpty)]
def inputsTwoArt : List (String × FetchOutcome) :=
  [(urlPost, FetchOutcome.ok dArt), (urlPost2, FetchOutcome.ok dArt)]
def inputsMixed : List (String × FetchOutcome) :=
  [(urlProf, FetchOutcome.ok dEmpty), ("https://bad/", FetchOutcome.err "no_data_found")]
def inputsOneArt : List (String × FetchOutcome) := [(urlPost, FetchOutcome.ok dArt)]

def eFixProf : Entry := finalizeEntry (profileRaw urlProf {})

/- ==================================================================
   Lemmas about the dict operations.
   ================================================================== -/

theorem getVal_setVal_self (l : Entry) (k : String) (v : JVal) :
    getVal (setVal l k v) k = some v := by
  induction l with
  | nil => simp [setVal, getVal]
  | cons p rest ih =>
    obtain ⟨k₀, w⟩ := p
    by_cases h : k₀ = k
    · simp [setVal, h, getVal]
    · simp [setVal, h, getVal, ih]

theorem getVal_setVal_ne (l : Entry) (k k' : String) (v : JVal) (h : k' ≠ k) :
    getVal (setVal l k v) k' = getVal l k' := by
  induction l with
  | nil =>
    simp only [setVal, getVal]
    rw [if_neg (fun hh => h hh.symm)]
  | cons p rest ih =>
    obtain ⟨k₀, w⟩ := p
    by_cases hk : k₀ = k
    · subst hk
      simp only [setVal, if_pos rfl, getVal]
      rw [if_neg (fun hh : k₀ = k' => h hh.symm), if_neg (fun hh : k₀ = k' => h hh.symm)]
    · simp only [setVal, if_neg hk, getVal]
      by_cases hk' : k₀ = k'
      · rw [if_pos hk', if_pos hk']
      · rw [if_neg hk', if_neg hk', ih]

theorem mem_of_getVal (l : Entry) (k : String) (v : JVal)
    (h : getVal l k = some v) : (k, v) ∈ l := by
  induction l with
  | nil => simp [getVal] at h
  | cons p rest ih =>
    obtain ⟨k₀, w⟩ := p
    by_cases hk : k₀ = k
    · subst hk
      simp only [getVal, if_pos rfl] at h
      injection h with h
      subst h
      exact List.mem_cons_self _ _
    · simp only [getVal, if_neg hk] at h
      exact List.mem_cons_of_mem _ (ih h)

theorem getVal_none_of_not_mem_keys (l : Entry) (k : String)
    (h : k ∉ l.map Prod.fst) : getVal l k = none := by
  induction l with
  | nil => rfl
  | cons p rest ih =>
    obtain ⟨k₀, w⟩ := p
    rw [List.map_cons, List.mem_cons] at h
    push_neg at h
    simp only [getVal]
    rw [if_neg (fun hh => h.1 hh.symm)]
    exact ih h.2

theorem getVal_filter_kept (l : Entry) (k : String) (p : String × JVal → Bool)
    (hk : ∀ v : JVal, p (k, v) = true) :
    getVal (l.filter p) k = getVal l k := by
  induction l with
  | nil => rfl
  | cons q rest ih =>
    obtain ⟨k₀, w⟩ := q
    by_cases h : k₀ = k
    · subst h
      rw [List.filter_cons, if_pos (hk w)]
      simp [getVal]
    · rw [List.filter_cons]
      split
      · simp only [getVal, if_neg h]
        exact ih
      · simp only [getVal, if_neg h]
        exact ih

theorem getVal_filter_some (l : Entry) (k : String) (v : JVal) (p : String × JVal → Bool)
    (hv : getVal l k = some v) (hp : p (k, v) = true) :
    getVal (l.filter p) k = some v := by
  induction l with
  | nil => simp [getVal] at hv
  | cons q rest ih =>
    obtain ⟨k₀, w⟩ := q
    by_cases h : k₀ = k
    · subst h
      simp only [getVal, if_pos rfl] at hv
      injection hv with hv
      subst hv
      rw [List.filter_cons, if_pos hp]
      simp [getVal]
    · simp only [getVal, if_neg h] at hv
      rw [List.filter_cons]
      split
      · simp only [getVal, if_neg h]
        exact ih hv
      · exact ih hv

theorem getVal_filter_none (l : Entry) (k : String) (p : String × JVal → Bool)
    (h : getVal l k = none) : getVal (l.filter p) k = none := by
  induction l with
  | nil => rfl
  | cons q rest ih =>
    obtain ⟨k₀, w⟩ := q
    by_cases hk : k₀ = k
    · subst hk
      simp [getVal] at h
    · simp only [getVal, if_neg hk] at h
      rw [List.filter_cons]
      split
      · simp only [getVal, if_neg hk]
        exact ih h
      · exact ih h

theorem getVal_filter_dropped (l : Entry) (k : String) (v : JVal) (p : String × JVal → Bool)
    (hv : getVal l k = some v) (hp : p (k, v) = false)
    (hnd : (l.map Prod.fst).Nodup) : getVal (l.filter p) k = none := by
  induction l with
  | nil => simp [getVal] at hv
  | cons q rest ih =>
    obtain ⟨k₀, w⟩ := q
    rw [List.map_cons, List.nodup_cons] at hnd
    by_cases h : k₀ = k
    · subst h
      simp only [getVal, if_pos rfl] at hv
      injection hv with hv
      subst hv
      rw [List.filter_cons, if_neg (by rw [hp]; exact Bool.false_ne_true)]
      exact getVal_filter_none _ _ _ (getVal_none_of_not_mem_keys _ _ hnd.1)
    · simp only [getVal, if_neg h] at hv
      rw [List.filter_cons]
      split
      · simp only [getVal, if_neg h]
        exact ih hv hnd.2
      · exact ih hv hnd.2

theorem getVal_dropNulls_business (l : Entry) (f : String)
    (hf : f ∈ businessFields) : getVal (dropNulls l) f = getVal l f :=
  getVal_filter_kept _ _ _ (fun v => by simp [hf])

theorem getVal_dropNulls_null (l : Entry) (k : String)
    (h : getVal (dropNulls l) k = some JVal.null) : k ∈ businessFields := by
  have hmem := mem_of_getVal _ _ _ h
  rw [dropNulls, List.mem_filter] at hmem
  have h2 := hmem.2
  rw [decide_eq_true_eq] at h2
  rcases h2 with h2 | h2
  · exact absurd rfl h2
  · exact h2

theorem getVal_dropNulls_some (l : Entry) (k : String) (v : JVal)
    (hv : getVal l k = some v) (hnn : v ≠ JVal.null) :
    getVal (dropNulls l) k = some v :=
  getVal_filter_some _ _ _ _ hv (by simp [hnn])

theorem getVal_dropNulls_none (l : Entry) (k : String)
    (h : getVal l k = none) : getVal (dropNulls l) k = none :=
  getVal_filter_none _ _ _ h

theorem getVal_dropNulls_null_drop (l : Entry) (k : String)
    (h : getVal l k = some JVal.null) (hk : k ∉ businessFields)
    (hnd : (l.map Prod.fst).Nodup) : getVal (dropNulls l) k = none :=
  getVal_filter_dropped _ _ _ _ h (by simp [hk]) hnd

/- ==================================================================
   Lemmas about the cleanup pipeline.
   ================================================================== -/

theorem normField_eq_none (f : String) (e : Entry) (hg : getVal e f = none) :
    normField f e = setVal e f JVal.null := by
  unfold normField
  rw [hg]

theorem normField_eq_some (f : String) (e : Entry) (v : JVal) (hg : getVal e f = some v) :
    normField f e = if v = JVal.str "" then setVal e f JVal.null else e := by
  unfold normField
  rw [hg]

theorem normField_ne (f k : String) (e : Entry) (h : k ≠ f) :
    getVal (normField f e) k = getVal e k := by
  cases hg : getVal e f with
  | none =>
    rw [normField_eq_none _ _ hg]
    exact getVal_setVal_ne _ _ _ _ h
  | some v =>
    rw [normField_eq_some _ _ _ hg]
    by_cases hv : v = JVal.str ""
    · rw [if_pos hv]
      exact getVal_setVal_ne _ _ _ _ h
    · rw [if_neg hv]

theorem normField_self_ex (f : String) (e : Entry) :
    ∃ w, getVal (normField f e) f = some w := by
  cases hg : getVal e f with
  | none =>
    rw [normField_eq_none _ _ hg]
    exact ⟨JVal.null, getVal_setVal_self _ _ _⟩
  | some v =>
    rw [normField_eq_some _ _ _ hg]
    by_cases hv : v = JVal.str ""
    · rw [if_pos hv]
      exact ⟨JVal.null, getVal_setVal_self _ _ _⟩
    · rw [if_neg hv]
      exact ⟨v, hg⟩

theorem normField_null (f : String) (e : Entry)
    (h : getVal e f = none ∨ getVal e f = some (JVal.str "")) :
    getVal (normField f e) f = some JVal.null := by
  cases h with
  | inl h =>
    rw [normField_eq_none _ _ h]
    exact getVal_setVal_self _ _ _
  | inr h =>
    rw [normField_eq_some _ _ _ h, if_pos rfl]
    exact getVal_setVal_self _ _ _

theorem nb_ne (k : String) (e : Entry) (h : k ∉ businessFields) :
    getVal (normalizeBusiness e) k = getVal e k := by
  simp only [businessFields, List.mem_cons, List.not_mem_nil, or_false] at h
  push_neg at h
  obtain ⟨h1, h2, h3⟩ := h
  unfold normalizeBusiness
  rw [normField_ne _ _ _ h3, normField_ne _ _ _ h2, normField_ne _ _ _ h1]

theorem nb_business_ex (f : String) (e : Entry) (hf : f ∈ businessFields) :
    ∃ w, getVal (normalizeBusiness e) f = some w := by
  unfold normalizeBusiness
  simp only [businessFields, List.mem_cons, List.not_mem_nil, or_false] at hf
  rcases hf with hf | hf | hf
  · subst hf
    rw [normField_ne _ _ _ (by decide), normField_ne _ _ _ (by decide)]
    exact normField_self_ex _ _
  · subst hf
    rw [normField_ne _ _ _ (by decide)]
    exact normField_self_ex _ _
  · subst hf
    exact normField_self_ex _ _

theorem nb_business_null (f : String) (e : Entry) (hf : f ∈ businessFields)
    (h : getVal e f = none ∨ getVal e f = some (JVal.str "")) :
    getVal (normalizeBusiness e) f = some JVal.null := by
  unfold normalizeBusiness
  simp only [businessFields, List.mem_cons, List.not_mem_nil, or_false] at hf
  rcases hf with hf | hf | hf
  · subst hf
    rw [normField_ne _ _ _ (by decide), normField_ne _ _ _ (by decide)]
    exact normField_null _ _ h
  · subst hf
    rw [normField_ne _ _ _ (by decide)]
    apply normField_null
    rw [normField_ne _ _ _ (by decide)]
    exact h
  · subst hf
    apply normField_null
    rw [normField_ne _ _ _ (by decide), normField_ne _ _ _ (by decide)]
    exact h

theorem backfill_ne (k : String) (e : Entry) (h : k ≠ "business_email") :
    getVal (backfillEmail e) k = getVal e k := by
  unfold backfillEmail
  split
  · rfl
  · split
    · split
      · split
        · exact getVal_setVal_ne _ _ _ _ h
        · rfl
      · rfl
    · rfl

theorem backfill_self_cases (e : Entry) :
    getVal (backfillEmail e) "business_email" = getVal e "business_email" ∨
      ∃ m, getVal (backfillEmail e) "business_email" = some (JVal.str m) := by
  unfold backfillEmail
  split
  · exact Or.inl rfl
  · split
    · split
      · split
        · exact Or.inr ⟨_, getVal_setVal_self _ _ _⟩
        · exact Or.inl rfl
      · exact Or.inl rfl
    · exact Or.inl rfl

theorem backfill_hit (e : Entry) (b m : String)
    (h1 : truthyJ (getVal e "business_email") = false)
    (h2 : getVal e "biography" = some (JVal.str b))
    (h3 : b ≠ "") (h4 : emailSearch b = some m) :
    backfillEmail e = setVal e "business_email" (JVal.str m) := by
  unfold backfillEmail
  rw [h1, h2]
  simp [h3, h4]

/- ==================================================================
   Lemmas about the count formatter.
   ================================================================== -/

theorem digitChar_isDigit : ∀ m, m < 10 → (Nat.digitChar m).isDigit = true := by decide

theorem natCharsAux_digits :
    ∀ fuel n, n < fuel → ∀ c ∈ natCharsAux fuel n, c.isDigit = true := by
  intro fuel
  induction fuel with
  | zero => intro n h; omega
  | succ fu ih =>
    intro n h c hc
    rw [natCharsAux] at hc
    by_cases h10 : n < 10
    · rw [if_pos h10] at hc
      rw [List.mem_singleton] at hc
      subst hc
      exact digitChar_isDigit _ h10
    · rw [if_neg h10] at hc
      rw [List.mem_append] at hc
      rcases hc with hc | hc
      · have hlt : n / 10 < fu := by
          have hd : n / 10 < n := Nat.div_lt_self (by omega) (by omega)
          omega
        exact ih _ hlt c hc
      · rw [List.mem_singleton] at hc
        subst hc
        exact digitChar_isDigit _ (Nat.mod_lt _ (by omega))

theorem natChars_digits (n : Nat) : ∀ c ∈ natChars n, c.isDigit = true :=
  natCharsAux_digits (n + 1) n (Nat.lt_succ_self n)

theorem isDigit_ne_dot (c : Char) (h : c.isDigit = true) : c ≠ '.' := by
  intro he
  subst he
  exact absurd h (by decide)

theorem strip_cons_ne (c : Char) (h : c ≠ '.') (t : List Char) :
    stripDotZero (c :: t) = c :: stripDotZero t := by
  cases t with
  | nil => rfl
  | cons d rest =>
    simp only [stripDotZero]
    rw [if_neg (fun hh => h hh.1)]

theorem strip_append_nodot (ip t : List Char) (h : ∀ c ∈ ip, c ≠ '.') :
    stripDotZero (ip ++ t) = ip ++ stripDotZero t := by
  induction ip with
  | nil => rfl
  | cons c rest ih =>
    rw [List.cons_append, strip_cons_ne c (h c (List.mem_cons_self _ _)) _,
      ih (fun x hx => h x (List.mem_cons_of_mem _ hx)), List.cons_append]

theorem digitChar_zero_iff : ∀ r, r < 10 → ((Nat.digitChar r = '0') ↔ r = 0) := by decide

theorem strip_render (mm r : Nat) (sfx : Char) (hr : r < 10) :
    stripDotZero (natChars mm ++ '.' :: Nat.digitChar r :: [sfx]) =
      if r = 0 then natChars mm ++ [sfx]
      else natChars mm ++ '.' :: Nat.digitChar r :: [sfx] := by
  rw [strip_append_nodot _ _ (fun c hc => isDigit_ne_dot c (natChars_digits mm c hc))]
  by_cases h0 : r = 0
  · subst h0
    rw [if_pos rfl]
    have h00 : Nat.digitChar 0 = '0' := by decide
    rw [h00]
    have hstep : stripDotZero ('.' :: '0' :: [sfx]) = stripDotZero [sfx] := by
      show (if ('.' : Char) = '.' ∧ ('0' : Char) = '0' then stripDotZero [sfx]
        else '.' :: stripDotZero ('0' :: [sfx])) = stripDotZero [sfx]
      rw [if_pos ⟨rfl, rfl⟩]
    rw [hstep]
    rfl
  · rw [if_neg h0]
    have hd : Nat.digitChar r ≠ '0' := fun hh => h0 ((digitChar_zero_iff r hr).mp hh)
    have hdot : Nat.digitChar r ≠ '.' := isDigit_ne_dot _ (digitChar_isDigit r hr)
    have hstep : stripDotZero ('.' :: Nat.digitChar r :: [sfx]) =
        '.' :: stripDotZero (Nat.digitChar r :: [sfx]) := by
      show (if ('.' : Char) = '.' ∧ Nat.digitChar r = '0' then stripDotZero [sfx]
        else '.' :: stripDotZero (Nat.digitChar r :: [sfx])) =
        '.' :: stripDotZero (Nat.digitChar r :: [sfx])
      rw [if_neg (fun hh => hd hh.2)]
    rw [hstep, strip_cons_ne _ hdot]
    rfl

theorem fmt1_eq_specAbbrev (n den : Nat) (sfx : Char) :
    fmt1 n den sfx = specAbbrev n den sfx := by
  simp only [fmt1, specAbbrev]
  have hr : roundHalfEven (n * 10) den % 10 < 10 := Nat.mod_lt _ (by omega)
  rw [strip_render _ _ _ hr]
  by_cases h0 : roundHalfEven (n * 10) den % 10 = 0
  · simp [h0]
  · simp [h0]

/- ==================================================================
   Lemmas about the per-URL loop.
   ================================================================== -/

theorem chainAttempt_some (chain : String → FetchOutcome) (cs : CoreState) (u : String) :
    chainAttempt chain cs (some u) =
      (if u ≠ "" ∧ u ∉ cs.processed then
        match chain u with
        | FetchOutcome.ok pd =>
          { data := cs.data ++ [finalizeEntry (profileRaw (profileUrlOf u) pd.user_data)],
            processed := cs.processed ++ [u],
            chained := cs.chained ++ [u] }
        | _ => { cs with processed := cs.processed ++ [u] }
      else cs) := rfl

theorem chainAttempt_none (chain : String → FetchOutcome) (cs : CoreState) :
    chainAttempt chain cs none = cs := rfl

theorem coreStep_err (chain : String → FetchOutcome) (cs : CoreState) (url m : String) :
    coreStep chain cs url (FetchOutcome.err m) = cs := rfl

theorem coreStep_raised (chain : String → FetchOutcome) (cs : CoreState) (url m : String) :
    coreStep chain cs url (FetchOutcome.raised m) = cs := rfl

theorem coreStep_ok (chain : String → FetchOutcome) (cs : CoreState) (url : String) (d : Extracted) :
    coreStep chain cs url (FetchOutcome.ok d) =
      (if determineContentType url d = "profile" then
        { cs with data := cs.data ++ [finalizeEntry (profileRaw url d.user_data)] }
      else
        { chainAttempt chain cs (resolvedU d) with
          data := (chainAttempt chain cs (resolvedU d)).data ++
            [finalizeEntry (articleRaw url (determineContentType url d) d)] }) := rfl

theorem runLoopAux_decomp (chain : String → FetchOutcome) :
    ∀ (l : List (String × FetchOutcome)) (st : ScrapeState) (i : Nat),
      runLoopAux chain st i l =
        ⟨(coreLoop chain ⟨st.data, st.processed, st.chained⟩ l).data,
         st.errors ++ expectedErrors i l,
         (coreLoop chain ⟨st.data, st.processed, st.chained⟩ l).processed,
         (coreLoop chain ⟨st.data, st.processed, st.chained⟩ l).chained⟩ := by
  intro l
  induction l with
  | nil =>
    intro st i
    simp [runLoopAux, coreLoop, expectedErrors]
  | cons p rest ih =>
    intro st i
    obtain ⟨url, oc⟩ := p
    rw [runLoopAux, ih]
    simp [processUrl, coreLoop, expectedErrors, List.append_assoc]

theorem coreLoop_filter_ok (chain : String → FetchOutcome) :
    ∀ (l : List (String × FetchOutcome)) (cs : CoreState),
      coreLoop chain cs (l.filter okInput) = coreLoop chain cs l := by
  intro l
  induction l with
  | nil => intro cs; rfl
  | cons p rest ih =>
    intro cs
    obtain ⟨url, oc⟩ := p
    cases oc with
    | ok d =>
      rw [List.filter_cons, if_pos (by rfl)]
      rw [coreLoop, coreLoop]
      exact ih _
    | err m =>
      rw [List.filter_cons, if_neg (by simp [okInput, isOkOutcome])]
      rw [coreLoop]
      exact ih cs
    | raised m =>
      rw [List.filter_cons, if_neg (by simp [okInput, isOkOutcome])]
      rw [coreLoop]
      exact ih cs

theorem coreStep_data_mem (chain : String → FetchOutcome) (cs : CoreState) (url : String)
    (oc : FetchOutcome) (e : Entry) (h : e ∈ (coreStep chain cs url oc).data) :
    e ∈ cs.data ∨ ∃ e₀, e = finalizeEntry e₀ := by
  cases oc with
  | err m => exact Or.inl h
  | raised m => exact Or.inl h
  | ok d =>
    rw [coreStep_ok] at h
    by_cases hct : determineContentType url d = "profile"
    · rw [if_pos hct] at h
      simp only [List.mem_append, List.mem_singleton] at h
      rcases h with h | h
      · exact Or.inl h
      · exact Or.inr ⟨_, h⟩
    · rw [if_neg hct] at h
      simp only [List.mem_append, List.mem_singleton] at h
      rcases h with h | h
      · cases hu : resolvedU d with
        | none =>
          rw [hu, chainAttempt_none] at h
          exact Or.inl h
        | some u =>
          rw [hu, chainAttempt_some] at h
          by_cases hcond : u ≠ "" ∧ u ∉ cs.processed
          · rw [if_pos hcond] at h
            cases hcc : chain u with
            | ok pd =>
              rw [hcc] at h
              simp only [List.mem_append, List.mem_singleton] at h
              rcases h with h | h
              · exact Or.inl h
              · exact Or.inr ⟨_, h⟩
            | err m =>
              rw [hcc] at h
              exact Or.inl h
            | raised m =>
              rw [hcc] at h
              exact Or.inl h
          · rw [if_neg hcond] at h
            exact Or.inl h
      · exact Or.inr ⟨_, h⟩

theorem coreLoop_data_mem (chain : String → FetchOutcome) :
    ∀ (l : List (String × FetchOutcome)) (cs : CoreState) (e : Entry),
      e ∈ (coreLoop chain cs l).data → e ∈ cs.data ∨ ∃ e₀, e = finalizeEntry e₀ := by
  intro l
  induction l with
  | nil => intro cs e h; exact Or.inl h
  | cons p rest ih =>
    intro cs e h
    obtain ⟨url, oc⟩ := p
    rw [coreLoop] at h
    rcases ih _ _ h with h | h
    · exact coreStep_data_mem _ _ _ _ _ h
    · exact Or.inr h

theorem chainAttempt_processed_mono (chain : String → FetchOutcome) (cs : CoreState)
    (un : Option String) (u : String) (h : u ∈ cs.processed) :
    u ∈ (chainAttempt chain cs un).processed := by
  cases un with
  | none => exact h
  | some w =>
    rw [chainAttempt_some]
    by_cases hcond : w ≠ "" ∧ w ∉ cs.processed
    · rw [if_pos hcond]
      cases hcc : chain w with
      | ok pd => exact List.mem_append_left _ h
      | err m => exact List.mem_append_left _ h
      | raised m => exact List.mem_append_left _ h
    · rw [if_neg hcond]
      exact h

theorem coreStep_processed_mono (chain : String → FetchOutcome) (cs : CoreState)
    (url : String) (oc : FetchOutcome) (u : String) (h : u ∈ cs.processed) :
    u ∈ (coreStep chain cs url oc).processed := by
  cases oc with
  | err m => exact h
  | raised m => exact h
  | ok d =>
    rw [coreStep_ok]
    by_cases hct : determineContentType url d = "profile"
    · rw [if_pos hct]
      exact h
    · rw [if_neg hct]
      exact chainAttempt_processed_mono _ _ _ _ h

theorem coreLoop_processed_mono (chain : String → FetchOutcome) :
    ∀ (l : List (String × FetchOutcome)) (cs : CoreState) (u : String),
      u ∈ cs.processed → u ∈ (coreLoop chain cs l).processed := by
  intro l
  induction l with
  | nil => intro cs u h; exact h
  | cons p rest ih =>
    intro cs u h
    obtain ⟨url, oc⟩ := p
    rw [coreLoop]
    exact ih _ _ (coreStep_processed_mono _ _ _ _ _ h)

theorem coreStep_trigger_processed (chain : String → FetchOutcome) (cs : CoreState)
    (url : String) (d : Extracted) (u : String)
    (hct : determineContentType url d ≠ "profile")
    (hu : resolvedU d = some u) (hne : u ≠ "") :
    u ∈ (coreStep chain cs url (FetchOutcome.ok d)).processed := by
  rw [coreStep_ok, if_neg hct, hu]
  show u ∈ (chainAttempt chain cs (some u)).processed
  rw [chainAttempt_some]
  by_cases hcond : u ≠ "" ∧ u ∉ cs.processed
  · rw [if_pos hcond]
    cases hcc : chain u with
    | ok pd => exact List.mem_append_right _ (List.mem_singleton_self _)
    | err m => exact List.mem_append_right _ (List.mem_singleton_self _)
    | raised m => exact List.mem_append_right _ (List.mem_singleton_self _)
  · rw [if_neg hcond]
    push_neg at hcond
    exact hcond hne

theorem coreLoop_trigger (chain : String → FetchOutcome) (u : String) :
    ∀ (l : List (String × FetchOutcome)) (cs : CoreState),
      (∃ p ∈ l, isTrigger u p = true) → u ∈ (coreLoop chain cs l).processed := by
  intro l
  induction l with
  | nil =>
    intro cs h
    rcases h with ⟨p, hp, _⟩
    simp at hp
  | cons q rest ih =>
    intro cs h
    obtain ⟨url, oc⟩ := q
    rw [coreLoop]
    rcases h with ⟨p, hp, htr⟩
    rw [List.mem_cons] at hp
    rcases hp with hp | hp
    · subst hp
      cases oc with
      | err m => simp [isTrigger] at htr
      | raised m => simp [isTrigger] at htr
      | ok d =>
        simp only [isTrigger, Bool.and_eq_true, decide_eq_true_eq, beq_iff_eq, bne_iff_ne] at htr
        obtain ⟨⟨hct, hru⟩, hne⟩ := htr
        exact coreLoop_processed_mono _ _ _ _
          (coreStep_trigger_processed chain cs url d u hct hru hne)
    · exact ih _ ⟨p, hp, htr⟩

theorem count_singleton_ne (u w : String) (h : u ≠ w) : List.count u [w] = 0 := by
  simp [List.count_cons, h]

theorem if_mem_append_ne (u w : String) (pr : List String) (b : Prop) [Decidable b]
    (huw : u ≠ w) :
    (if u ∈ pr ++ [w] ∧ b then (1 : Nat) else 0) = (if u ∈ pr ∧ b then 1 else 0) := by
  have hmm : (u ∈ pr ++ [w]) ↔ u ∈ pr := by simp [huw]
  by_cases hc : u ∈ pr ∧ b
  · rw [if_pos hc, if_pos ⟨List.mem_append_left _ hc.1, hc.2⟩]
  · rw [if_neg hc, if_neg (fun hh => hc ⟨hmm.mp hh.1, hh.2⟩)]

theorem chainAttempt_count_inv (chain : String → FetchOutcome) (cs : CoreState)
    (un : Option String)
    (h : ∀ u : String, cs.chained.count u =
      if u ∈ cs.processed ∧ isOkOutcome (chain u) = true then 1 else 0) :
    ∀ u : String, (chainAttempt chain cs un).chained.count u =
      if u ∈ (chainAttempt chain cs un).processed ∧ isOkOutcome (chain u) = true
      then 1 else 0 := by
  intro u
  cases un with
  | none => exact h u
  | some w =>
    rw [chainAttempt_some]
    by_cases hcond : w ≠ "" ∧ w ∉ cs.processed
    · rw [if_pos hcond]
      cases hcc : chain w with
      | ok pd =>
        show (cs.chained ++ [w]).count u =
          if u ∈ cs.processed ++ [w] ∧ isOkOutcome (chain u) = true then 1 else 0
        rw [List.count_append]
        by_cases huw : u = w
        · subst huw
          have h0 := h u
          rw [if_neg (fun hh => hcond.2 hh.1)] at h0
          rw [h0]
          have hok : isOkOutcome (chain u) = true := by rw [hcc]; rfl
          rw [if_pos ⟨List.mem_append_right _ (List.mem_singleton_self _), hok⟩]
          simp
        · rw [count_singleton_ne u w huw, Nat.add_zero, h u,
            if_mem_append_ne u w _ _ huw]
      | err m =>
        show cs.chained.count u =
          if u ∈ cs.processed ++ [w] ∧ isOkOutcome (chain u) = true then 1 else 0
        by_cases huw : u = w
        · subst huw
          have hok : isOkOutcome (chain u) = false := by rw [hcc]; rfl
          rw [h u, if_neg (fun hh => by rw [hok] at hh; exact Bool.false_ne_true hh.2),
            if_neg (fun hh => by rw [hok] at hh; exact Bool.false_ne_true hh.2)]
        · rw [h u, if_mem_append_ne u w _ _ huw]
      | raised m =>
        show cs.chained.count u =
          if u ∈ cs.processed ++ [w] ∧ isOkOutcome (chain u) = true then 1 else 0
        by_cases huw : u = w
        · subst huw
          have hok : isOkOutcome (chain u) = false := by rw [hcc]; rfl
          rw [h u, if_neg (fun hh => by rw [hok] at hh; exact Bool.false_ne_true hh.2),
            if_neg (fun hh => by rw [hok] at hh; exact Bool.false_ne_true hh.2)]
        · rw [h u, if_mem_append_ne u w _ _ huw]
    · rw [if_neg hcond]
      exact h u

theorem coreStep_count_inv (chain : String → FetchOutcome) (cs : CoreState)
    (url : String) (oc : FetchOutcome)
    (h : ∀ u : String, cs.chained.count u =
      if u ∈ cs.processed ∧ isOkOutcome (chain u) = true then 1 else 0) :
    ∀ u : String, (coreStep chain cs url oc).chained.count u =
      if u ∈ (coreStep chain cs url oc).processed ∧ isOkOutcome (chain u) = true
      then 1 else 0 := by
  intro u
  cases oc with
  | err m => exact h u
  | raised m => exact h u
  | ok d =>
    rw [coreStep_ok]
    by_cases hct : determineContentType url d = "profile"
    · rw [if_pos hct]
      exact h u
    · rw [if_neg hct]
      exact chainAttempt_count_inv chain cs _ h u

theorem coreLoop_count_inv (chain : String → FetchOutcome) :
    ∀ (l : List (String × FetchOutcome)) (cs : CoreState),
      (∀ u : String, cs.chained.count u =
        if u ∈ cs.processed ∧ isOkOutcome (chain u) = true then 1 else 0) →
      ∀ u : String, (coreLoop chain cs l).chained.count u =
        if u ∈ (coreLoop chain cs l).processed ∧ isOkOutcome (chain u) = true
        then 1 else 0 := by
  intro l
  induction l with
  | nil => intro cs h; exact h
  | cons p rest ih =>
    intro cs h
    obtain ⟨url, oc⟩ := p
    rw [coreLoop]
    exact ih _ (coreStep_count_inv chain cs url oc h)

theorem coreStep_datalen (chain : String → FetchOutcome) (cs : CoreState)
    (url : String) (oc : FetchOutcome) :
    (coreStep chain cs url oc).data.length + cs.chained.length =
      cs.data.length + (if okInput (url, oc) = true then 1 else 0) +
        (coreStep chain cs url oc).chained.length := by
  cases oc with
  | err m => simp [coreStep_err, okInput, isOkOutcome]
  | raised m => simp [coreStep_raised, okInput, isOkOutcome]
  | ok d =>
    rw [coreStep_ok]
    rw [if_pos (show okInput (url, FetchOutcome.ok d) = true from rfl)]
    by_cases hct : determineContentType url d = "profile"
    · rw [if_pos hct]
      simp
    · rw [if_neg hct]
      cases hu : resolvedU d with
      | none =>
        rw [chainAttempt_none]
        simp
      | some w =>
        rw [chainAttempt_some]
        by_cases hcond : w ≠ "" ∧ w ∉ cs.processed
        · rw [if_pos hcond]
          cases hcc : chain w with
          | ok pd => simp; omega
          | err m => simp
          | raised m => simp
        · rw [if_neg hcond]
          simp

theorem coreLoop_datalen (chain : String → FetchOutcome) :
    ∀ (l : List (String × FetchOutcome)) (cs : CoreState),
      (coreLoop chain cs l).data.length + cs.chained.length =
        cs.data.length + l.countP okInput + (coreLoop chain cs l).chained.length := by
  intro l
  induction l with
  | nil => intro cs; simp [coreLoop]
  | cons p rest ih =>
    intro cs
    obtain ⟨url, oc⟩ := p
    rw [coreLoop, List.countP_cons]
    have h1 := ih (coreStep chain cs url oc)
    have h2 := coreStep_datalen chain cs url oc
    by_cases hok : okInput (url, oc) = true
    · rw [if_pos hok] at h2 ⊢
      omega
    · rw [if_neg hok] at h2 ⊢
      omega

/- ==================================================================
   Lemmas about the content-type breakdown.
   ================================================================== -/

theorem lookupNat_bump_self (m : List (String × Nat)) (k : String) :
    lookupNat (bump m k) k = some ((lookupNat m k).getD 0 + 1) := by
  induction m with
  | nil => simp [bump, lookupNat]
  | cons p rest ih =>
    obtain ⟨k₀, n⟩ := p
    by_cases h : k₀ = k
    · subst h
      simp [bump, lookupNat]
    · simp [bump, h, lookupNat, ih]

theorem lookupNat_bump_ne (m : List (String × Nat)) (k k' : String) (h : k' ≠ k) :
    lookupNat (bump m k) k' = lookupNat m k' := by
  induction m with
  | nil =>
    simp only [bump, lookupNat]
    rw [if_neg (fun hh => h hh.symm)]
  | cons p rest ih =>
    obtain ⟨k₀, n⟩ := p
    by_cases hk : k₀ = k
    · subst hk
      simp only [bump, if_pos rfl, lookupNat]
      rw [if_neg (fun hh : k₀ = k' => h hh.symm), if_neg (fun hh : k₀ = k' => h hh.symm)]
    · simp only [bump, if_neg hk, lookupNat]
      by_cases hk' : k₀ = k'
      · rw [if_pos hk', if_pos hk']
      · rw [if_neg hk', if_neg hk', ih]

theorem countTypes_fold (ct : String) :
    ∀ (l : List Entry) (m : List (String × Nat)),
      lookupNat (l.foldl (fun acc e => bump acc (ctypeOf e)) m) ct =
        if lookupNat m ct = none ∧ l.countP (fun e => ctypeOf e == ct) = 0 then none
        else some ((lookupNat m ct).getD 0 + l.countP (fun e => ctypeOf e == ct)) := by
  intro l
  induction l with
  | nil =>
    intro m
    rw [List.foldl_nil, List.countP_nil]
    cases hm : lookupNat m ct with
    | none => simp
    | some k => simp
  | cons e rest ih =>
    intro m
    rw [List.foldl_cons, List.countP_cons, ih (bump m (ctypeOf e))]
    cases hbe : (ctypeOf e == ct) with
    | true =>
      have hc : ctypeOf e = ct := by rwa [beq_iff_eq] at hbe
      have hself : lookupNat (bump m (ctypeOf e)) ct =
          some ((lookupNat m ct).getD 0 + 1) := by
        rw [hc, lookupNat_bump_self]
      have hif : (if (true = true) then (1 : Nat) else 0) = 1 := if_pos rfl
      rw [hself, hif]
      have hne2 : rest.countP (fun e => ctypeOf e == ct) + 1 ≠ 0 := Nat.succ_ne_zero _
      rw [if_neg (show ¬(some ((lookupNat m ct).getD 0 + 1) = none ∧
          rest.countP (fun e => ctypeOf e == ct) = 0) from fun hh => by
            exact Option.some_ne_none _ hh.1),
        if_neg (fun hh => hne2 hh.2)]
      simp only [Option.getD_some]
      congr 1
      omega
    | false =>
      have hc : ct ≠ ctypeOf e := by
        intro heq
        rw [heq, beq_self_eq_true] at hbe
        exact absurd hbe (by decide)
      have hneq : lookupNat (bump m (ctypeOf e)) ct = lookupNat m ct :=
        lookupNat_bump_ne _ _ _ hc
      have hif : (if (false = true) then (1 : Nat) else 0) = 0 := if_neg (by simp)
      rw [hneq, hif, Nat.add_zero]

theorem countTypes_lookup (data : List Entry) (ct : String) :
    lookupNat (countTypes data) ct =
      if data.countP (fun e => ctypeOf e == ct) = 0 then none
      else some (data.countP (fun e => ctypeOf e == ct)) := by
  unfold countTypes
  rw [countTypes_fold ct data []]
  by_cases hz : data.countP (fun e => ctypeOf e == ct) = 0
  · rw [if_pos ⟨rfl, hz⟩, if_pos hz]
  · rw [if_neg (fun hh => hz hh.2), if_neg hz]
    simp
    rfl

/- ==================================================================
   Composite lemmas about the finalized entries and the run.
   ================================================================== -/

theorem scrapeState_eq (inputs : List (String × FetchOutcome)) (chain : String → FetchOutcome) :
    scrapeState inputs chain =
      ⟨(coreLoop chain initCore inputs).data,
       expectedErrors 1 inputs,
       (coreLoop chain initCore inputs).processed,
       (coreLoop chain initCore inputs).chained⟩ := by
  unfold scrapeState
  rw [runLoopAux_decomp, List.nil_append]
  rfl

theorem finalize_keep_nonbusiness (e : Entry) (k : String) (v : JVal)
    (hk : k ∉ businessFields) (hv : getVal e k = some v) (hnn : v ≠ JVal.null) :
    getVal (finalizeEntry e) k = some v := by
  have hke : k ≠ "business_email" := by
    intro hh
    rw [hh] at hk
    exact hk (by decide)
  unfold finalizeEntry
  apply getVal_dropNulls_some
  · rw [backfill_ne _ _ hke, nb_ne _ _ hk, hv]
  · exact hnn

theorem scrapeRun_data_finalized (inputs : List (String × FetchOutcome))
    (chain : String → FetchOutcome) (t : Rat) (e : Entry)
    (h : e ∈ (scrapeRun inputs chain t).data) : ∃ e₀, e = finalizeEntry e₀ := by
  unfold scrapeRun at h
  by_cases hne : inputs.isEmpty = true
  · rw [if_pos hne] at h
    simp at h
  · rw [if_neg hne] at h
    rw [scrapeState_eq] at h
    rcases coreLoop_data_mem chain inputs initCore e h with h | h
    · simp [initCore] at h
    · exact h

theorem dropNulls_keepStr (l : Entry) (k : String) (x : Option String)
    (hk : k ∉ businessFields) (hnd : (l.map Prod.fst).Nodup)
    (hval : getVal l k = some (optStrJ x)) :
    getVal (dropNulls l) k = keepStr x := by
  cases x with
  | none => exact getVal_dropNulls_null_drop _ _ hval hk hnd
  | some s => exact getVal_dropNulls_some _ _ _ hval (fun hh => JVal.noConfusion hh)

theorem dropNulls_keepFmt (l : Entry) (k : String) (x : Option Int)
    (hk : k ∉ businessFields) (hnd : (l.map Prod.fst).Nodup)
    (hval : getVal l k = some (optIntFmt x)) :
    getVal (dropNulls l) k = keepStr (formatCount x) := by
  cases hx : formatCount x with
  | none =>
    have hval2 : getVal l k = some JVal.null := by
      rw [hval]
      simp only [optIntFmt, hx]
    exact getVal_dropNulls_null_drop _ _ hval2 hk hnd
  | some s =>
    have hval2 : getVal l k = some (JVal.str s) := by
      rw [hval]
      simp only [optIntFmt, hx]
    exact getVal_dropNulls_some _ _ _ hval2 (fun hh => JVal.noConfusion hh)

/- ==================================================================
   Claim theorems.
   ================================================================== -/

/-- C3: for every URL and extracted data, the derived content type is
"video" when the URL contains "/reel/"; otherwise, when the URL contains
"/p/", "video" exactly when a video marker (meta content_type equal to
"video", truthy script is_video, or truthy script video_url) is present
and "article" when none is; otherwise "profile". -/
theorem content_type_from_url (url : String) (d : Extracted) :
    (hasSub url "/reel/" = true → determineContentType url d = "video") ∧
    (hasSub url "/reel/" = false → hasSub url "/p/" = true → hasVideoMarker d = true →
      determineContentType url d = "video") ∧
    (hasSub url "/reel/" = false → hasSub url "/p/" = true → hasVideoMarker d = false →
      determineContentType url d = "article") ∧
    (hasSub url "/reel/" = false → hasSub url "/p/" = false →
      determineContentType url d = "profile") := by
  refine ⟨?_, ?_, ?_, ?_⟩
  · intro h
    simp [determineContentType, h]
  · intro h1 h2 h3
    simp [determineContentType, h1, h2, h3]
  · intro h1 h2 h3
    simp [determineContentType, h1, h2, h3]
  · intro h1 h2
    simp [determineContentType, h1, h2]

/-- C3 witness: a reel URL yields "video", a post URL without markers
yields "article". -/
theorem content_type_from_url_witness :
    determineContentType urlReel dEmpty = "video" ∧
    determineContentType urlPost dEmpty = "article" :=
  ⟨(content_type_from_url urlReel dEmpty).1 (by decide),
   (content_type_from_url urlPost dEmpty).2.2.1 (by decide) (by decide) (by decide)⟩

/-- C2: the count formatter agrees everywhere with the spec form: one
decimal digit plus "M" above one million and plus "K" in [1000, 1000000)
with a trailing ".0" removed, the plain decimal text below 1000; the
spec examples evaluate as stated. -/
theorem format_count_spec :
    (∀ c : Int, formatCountInt c = specFormatCount c) ∧
    formatCountInt 16000000 = "16M" ∧ formatCountInt 1500000 = "1.5M" ∧
    formatCountInt 16000 = "16K" ∧ formatCountInt 16500 = "16.5K" ∧
    (∀ c : Int, c < 1000 → formatCountInt c = String.mk (intChars c)) := by
  refine ⟨?_, by decide, by decide, by decide, by decide, ?_⟩
  · intro c
    unfold formatCountInt specFormatCount
    by_cases h1 : (1000000 : Int) ≤ c
    · rw [if_pos h1, if_pos h1, fmt1_eq_specAbbrev]
    · rw [if_neg h1, if_neg h1]
      by_cases h2 : (1000 : Int) ≤ c
      · rw [if_pos h2, if_pos h2, fmt1_eq_specAbbrev]
      · rw [if_neg h2, if_neg h2]
  · intro c hc
    unfold formatCountInt
    rw [if_neg (by omega), if_neg (by omega)]

/-- C2 witness: a count below 1000 renders as its decimal text. -/
theorem format_count_spec_witness : formatCountInt 999 = String.mk (intChars 999) :=
  format_count_spec.2.2.2.2.2 999 (by omega)

/-- C9: in every profile entry built by the scraper (the same builder
serves original and chained profiles), a missing is_professional_account
key defaults to true while missing is_private, is_verified and
is_business_account keys default to false. -/
theorem profile_boolean_defaults (url : String) (ud : UserData) :
    (ud.is_professional_account = none →
      getVal (finalizeEntry (profileRaw url ud)) "is_professional_account" =
        some (JVal.bool true)) ∧
    (ud.is_private = none →
      getVal (finalizeEntry (profileRaw url ud)) "is_private" = some (JVal.bool false)) ∧
    (ud.is_verified = none →
      getVal (finalizeEntry (profileRaw url ud)) "is_verified" = some (JVal.bool false)) ∧
    (ud.is_business_account = none →
      getVal (finalizeEntry (profileRaw url ud)) "is_business_account" =
        some (JVal.bool false)) := by
  refine ⟨?_, ?_, ?_, ?_⟩
  · intro h
    apply finalize_keep_nonbusiness _ _ _ (by decide)
    · show getVal (profileRaw url ud) "is_professional_account" = some (JVal.bool true)
      have h0 : getVal (profileRaw url ud) "is_professional_account" =
          some (d2 ud.is_professional_account (JVal.bool true) JVal.bool) := rfl
      rw [h0, h]
      rfl
    · exact fun hh => JVal.noConfusion hh
  · intro h
    apply finalize_keep_nonbusiness _ _ _ (by decide)
    · show getVal (profileRaw url ud) "is_private" = some (JVal.bool false)
      have h0 : getVal (profileRaw url ud) "is_private" =
          some (d2 ud.is_private (JVal.bool false) JVal.bool) := rfl
      rw [h0, h]
      rfl
    · exact fun hh => JVal.noConfusion hh
  · intro h
    apply finalize_keep_nonbusiness _ _ _ (by decide)
    · show getVal (profileRaw url ud) "is_verified" = some (JVal.bool false)
      have h0 : getVal (profileRaw url ud) "is_verified" =
          some (d2 ud.is_verified (JVal.bool false) JVal.bool) := rfl
      rw [h0, h]
      rfl
    · exact fun hh => JVal.noConfusion hh
  · intro h
    apply finalize_keep_nonbusiness _ _ _ (by decide)
    · show getVal (profileRaw url ud) "is_business_account" = some (JVal.bool false)
      have h0 : getVal (profileRaw url ud) "is_business_account" =
          some (d2 ud.is_business_account (JVal.bool false) JVal.bool) := rfl
      rw [h0, h]
      rfl
    · exact fun hh => JVal.noConfusion hh

/-- C9 witness: a profile with empty user data reports
is_professional_account true. -/
theorem profile_boolean_defaults_witness :
    getVal (finalizeEntry (profileRaw urlProf {})) "is_professional_account" =
      some (JVal.bool true) :=
  (profile_boolean_defaults urlProf {}).1 rfl

/-- C4: every entry in the output data carries the three business keys,
every null-valued key of an output entry is a business key, and for a
business field that was absent or empty before cleanup the final value
is null, except that business_email may instead carry a string found by
the biography backfill. -/
theorem business_fields_always_present :
    (∀ (inputs : List (String × FetchOutcome)) (chain : String → FetchOutcome) (t : Rat)
      (e : Entry), e ∈ (scrapeRun inputs chain t).data →
        (∀ f ∈ businessFields, ∃ v, getVal e f = some v) ∧
        (∀ k, getVal e k = some JVal.null → k ∈ businessFields)) ∧
    (∀ (e₀ : Entry) (f : String), f ∈ businessFields →
      (getVal e₀ f = none ∨ getVal e₀ f = some (JVal.str "")) →
      getVal (finalizeEntry e₀) f = some JVal.null ∨
        (f = "business_email" ∧ ∃ m, getVal (finalizeEntry e₀) f = some (JVal.str m))) := by
  constructor
  · intro inputs chain t e he
    obtain ⟨e₀, rfl⟩ := scrapeRun_data_finalized inputs chain t e he
    constructor
    · intro f hf
      obtain ⟨w, hw⟩ := nb_business_ex f e₀ hf
      by_cases hfe : f = "business_email"
      · subst hfe
        rcases backfill_self_cases (normalizeBusiness e₀) with hbc | ⟨m, hm⟩
        · exact ⟨w, by unfold finalizeEntry; rw [getVal_dropNulls_business _ _ hf, hbc, hw]⟩
        · exact ⟨JVal.str m, by unfold finalizeEntry; rw [getVal_dropNulls_business _ _ hf, hm]⟩
      · exact ⟨w, by
          unfold finalizeEntry
          rw [getVal_dropNulls_business _ _ hf, backfill_ne _ _ hfe, hw]⟩
    · intro k hk
      exact getVal_dropNulls_null _ _ hk
  · intro e₀ f hf habs
    have hnull := nb_business_null f e₀ hf habs
    by_cases hfe : f = "business_email"
    · subst hfe
      rcases backfill_self_cases (normalizeBusiness e₀) with hbc | ⟨m, hm⟩
      · left
        unfold finalizeEntry
        rw [getVal_dropNulls_business _ _ hf, hbc, hnull]
      · right
        exact ⟨rfl, m, by unfold finalizeEntry; rw [getVal_dropNulls_business _ _ hf, hm]⟩
    · left
      unfold finalizeEntry
      rw [getVal_dropNulls_business _ _ hf, backfill_ne _ _ hfe, hnull]

/-- C4 witness: the profile entry produced by a concrete run carries the
business_email key. -/
theorem business_fields_always_present_witness :
    ∃ v, getVal eFixProf "business_email" = some v :=
  (business_fields_always_present.1 inputsProf chainFail 0 eFixProf (by decide)).1
    "business_email" (by decide)

/-- C7: for every run that reaches the per-URL loop, the errors list is
exactly the records of the failing URLs with their error text and
1-based index, the success flag is true exactly when that list is
empty, and the output data is the same as for the run restricted to the
successful extractions. -/
theorem per_url_error_isolation (inputs : List (String × FetchOutcome))
    (chain : String → FetchOutcome) (t : Rat) (h : inputs ≠ []) :
    (scrapeRun inputs chain t).errors = expectedErrors 1 inputs ∧
    ((scrapeRun inputs chain t).success = true ↔ (scrapeRun inputs chain t).errors = []) ∧
    (scrapeRun inputs chain t).data = (scrapeRun (inputs.filter okInput) chain t).data := by
  have hni : ¬(inputs.isEmpty = true) := by
    cases inputs with
    | nil => exact absurd rfl h
    | cons a l => simp
  refine ⟨?_, ?_, ?_⟩
  · unfold scrapeRun
    rw [if_neg hni]
    show (scrapeState inputs chain).errors = expectedErrors 1 inputs
    rw [scrapeState_eq]
  · unfold scrapeRun
    rw [if_neg hni]
    show (scrapeState inputs chain).errors.isEmpty = true ↔
      (scrapeState inputs chain).errors = []
    exact List.isEmpty_iff
  · unfold scrapeRun
    by_cases hf : (inputs.filter okInput).isEmpty = true
    · rw [if_neg hni, if_pos hf]
      show (scrapeState inputs chain).data = []
      rw [scrapeState_eq]
      show (coreLoop chain initCore inputs).data = []
      rw [← coreLoop_filter_ok]
      rw [List.isEmpty_iff] at hf
      rw [hf]
      rfl
    · rw [if_neg hni, if_neg hf]
      show (scrapeState inputs chain).data = (scrapeState (inputs.filter okInput) chain).data
      rw [scrapeState_eq, scrapeState_eq]
      show (coreLoop chain initCore inputs).data =
        (coreLoop chain initCore (inputs.filter okInput)).data
      rw [coreLoop_filter_ok]

/-- C7 witness: a mixed run records exactly the failing URL with its
error text and index 2. -/
theorem per_url_error_isolation_witness :
    (scrapeRun inputsMixed chainFail 0).errors = expectedErrors 1 inputsMixed :=
  (per_url_error_isolation inputsMixed chainFail 0 (by decide)).1

/-- C6: the chained profile extraction is deduplicated by username: at
most one chained profile entry is appended per username, exactly one
when some input triggers the chain for that username and the chained
fetch succeeds, and the output size is the number of successful inputs
plus the number of chained profile entries. -/
theorem chained_profile_dedup (inputs : List (String × FetchOutcome))
    (chain : String → FetchOutcome) (u : String) :
    (scrapeState inputs chain).chained.count u ≤ 1 ∧
    (inputs.any (isTrigger u) = true →
      ((scrapeState inputs chain).chained.count u = 1 ↔ isOkOutcome (chain u) = true)) ∧
    (scrapeState inputs chain).data.length =
      inputs.countP okInput + (scrapeState inputs chain).chained.length := by
  have hinv := coreLoop_count_inv chain inputs initCore (by intro v; simp [initCore]) u
  have hchained : (scrapeState inputs chain).chained =
      (coreLoop chain initCore inputs).chained := by
    rw [scrapeState_eq]
  have hdata : (scrapeState inputs chain).data = (coreLoop chain initCore inputs).data := by
    rw [scrapeState_eq]
  refine ⟨?_, ?_, ?_⟩
  · rw [hchained, hinv]
    split <;> omega
  · intro htr
    rw [hchained, hinv]
    constructor
    · intro h1
      by_cases hok : isOkOutcome (chain u) = true
      · exact hok
      · rw [if_neg (fun hh => hok hh.2)] at h1
        omega
    · intro hok
      have hmem : u ∈ (coreLoop chain initCore inputs).processed := by
        apply coreLoop_trigger
        rw [List.any_eq_true] at htr
        exact htr
      rw [if_pos ⟨hmem, hok⟩]
  · rw [hdata, hchained]
    have hlen := coreLoop_datalen chain inputs initCore
    have h0 : initCore.chained.length = 0 := rfl
    have h1 : initCore.data.length = 0 := rfl
    omega

/-- C6 witness: two article inputs resolving to the same username with a
succeeding chained fetch produce exactly one chained profile entry. -/
theorem chained_profile_dedup_witness :
    (scrapeState inputsTwoArt chainOk).chained.count "alice" = 1 :=
  ((chained_profile_dedup inputsTwoArt chainOk "alice").2.1 (by decide)).mpr (by decide)

/-- C8 counterexample: a successful run whose summary carries the key
success_rate and no key success_rate_percent, refuting the claimed
field name. -/
theorem summary_success_rate_key_cex :
    (scrapeRun inputsProf chainFail 3).success = true ∧
    (scrapeRun inputsProf chainFail 3).summary.map Prod.fst =
      ["total_original_urls", "additional_profiles_extracted", "total_extractions",
       "successful_extractions", "failed_extractions", "success_rate",
       "total_time_seconds", "average_time_per_url", "content_type_breakdown"] ∧
    lookupS (scrapeRun inputsProf chainFail 3).summary "success_rate_percent" = none := by
  refine ⟨by decide, by decide, by decide⟩

/-- C8 (amended): every run reaching the per-URL loop yields a summary
with exactly the nine keys of the code, the rate key being success_rate,
and content_type_breakdown maps each content type occurring in the
output data to the number of entries of that type (absent keys have
count zero). -/
theorem summary_fields_exact (inputs : List (String × FetchOutcome))
    (chain : String → FetchOutcome) (t : Rat) (h : inputs ≠ []) :
    (scrapeRun inputs chain t).summary.map Prod.fst =
      ["total_original_urls", "additional_profiles_extracted", "total_extractions",
       "successful_extractions", "failed_extractions", "success_rate",
       "total_time_seconds", "average_time_per_url", "content_type_breakdown"] ∧
    lookupS (scrapeRun inputs chain t).summary "content_type_breakdown" =
      some (SVal.breakdown (countTypes (scrapeRun inputs chain t).data)) ∧
    (∀ ct : String, lookupNat (countTypes (scrapeRun inputs chain t).data) ct =
      if (scrapeRun inputs chain t).data.countP (fun e => ctypeOf e == ct) = 0 then none
      else some ((scrapeRun inputs chain t).data.countP (fun e => ctypeOf e == ct))) := by
  have hni : ¬(inputs.isEmpty = true) := by
    rw [List.isEmpty_iff]
    exact h
  refine ⟨?_, ?_, fun ct => countTypes_lookup _ ct⟩
  · unfold scrapeRun
    rw [if_neg hni]
    rfl
  · unfold scrapeRun
    rw [if_neg hni]
    rfl

/-- C8 witness: the summary of a concrete run carries exactly the nine
keys. -/
theorem summary_fields_exact_witness :
    (scrapeRun inputsProf chainOk 2).summary.map Prod.fst =
      ["total_original_urls", "additional_profiles_extracted", "total_extractions",
       "successful_extractions", "failed_extractions", "success_rate",
       "total_time_seconds", "average_time_per_url", "content_type_breakdown"] :=
  (summary_fields_exact inputsProf chainOk 2 (by decide)).1

/-- C10: in every run reaching the per-URL loop, successful_extractions
and total_extractions both equal the number of output entries whatever
the error count, the success rate is entries over original URLs times
one hundred, and a run exists whose reported rate exceeds one hundred. -/
theorem summary_counts_invariant (inputs : List (String × FetchOutcome))
    (chain : String → FetchOutcome) (t : Rat) (h : inputs ≠ []) :
    lookupS (scrapeRun inputs chain t).summary "successful_extractions" =
      some (SVal.nat (scrapeRun inputs chain t).data.length) ∧
    lookupS (scrapeRun inputs chain t).summary "total_extractions" =
      some (SVal.nat (scrapeRun inputs chain t).data.length) ∧
    lookupS (scrapeRun inputs chain t).summary "success_rate" =
      some (SVal.rat ((((scrapeRun inputs chain t).data.length : Rat) /
        (inputs.length : Rat)) * 100)) ∧
    (∃ (inputs₁ : List (String × FetchOutcome)) (chain₁ : String → FetchOutcome)
      (t₁ : Rat) (q : Rat),
      inputs₁ ≠ [] ∧
      lookupS (scrapeRun inputs₁ chain₁ t₁).summary "success_rate" =
        some (SVal.rat q) ∧ 100 < q) := by
  have hni : ¬(inputs.isEmpty = true) := by
    rw [List.isEmpty_iff]
    exact h
  have hn0 : inputs.length ≠ 0 := fun hh => h (List.length_eq_zero.mp hh)
  refine ⟨?_, ?_, ?_, ?_⟩
  · unfold scrapeRun
    rw [if_neg hni]
    rfl
  · unfold scrapeRun
    rw [if_neg hni]
    rfl
  · unfold scrapeRun
    rw [if_neg hni]
    show some (SVal.rat (if inputs.length = 0 then 0 else
      (((scrapeState inputs chain).data.length : Rat) / (inputs.length : Rat)) * 100)) = _
    rw [if_neg hn0]
  · refine ⟨inputsOneArt, chainOk, 5, (((2 : Nat) : Rat) / ((1 : Nat) : Rat)) * 100,
      by decide, rfl, by norm_num⟩

/-- C10 witness: total_extractions of a concrete run equals its output
length. -/
theorem summary_counts_invariant_witness :
    lookupS (scrapeRun inputsProf chainOk 7).summary "total_extractions" =
      some (SVal.nat (scrapeRun inputsProf chainOk 7).data.length) :=
  (summary_counts_invariant inputsProf chainOk 7 (by decide)).2.1

/-- C5 counterexample: with the biography "x@y.a|bc z@w.de" the emitted
business_email is "x@y.a|bc" (the code class [A-Z|a-z] admits the bar),
while the first letters-only email-shaped substring is "z@w.de". -/
theorem email_backfill_tld_class_cex :
    getVal (profileRaw urlProf udBioBar) "business_email" = some JVal.null ∧
    emailSearchSpec bioBar = some "z@w.de" ∧
    getVal (finalizeEntry (profileRaw urlProf udBioBar)) "business_email" =
      some (JVal.str "x@y.a|bc") ∧
    ("x@y.a|bc" : String) ≠ "z@w.de" := by
  refine ⟨by decide, by decide, by decide, by decide⟩

/-- C5 (amended): for every entry whose business_email is absent, null or
empty, and whose biography is a non-empty string on which the code regex
search (leftmost greedy, TLD class the letters plus the bar character)
finds a match, the emitted business_email is exactly that match. -/
theorem email_backfill_first_match (e : Entry) (b m : String)
    (habs : getVal e "business_email" = none ∨
      getVal e "business_email" = some JVal.null ∨
      getVal e "business_email" = some (JVal.str ""))
    (hbio : getVal e "biography" = some (JVal.str b))
    (hbne : b ≠ "") (hsearch : emailSearch b = some m) :
    getVal (finalizeEntry e) "business_email" = some (JVal.str m) := by
  have hfm : ("business_email" : String) ∈ businessFields := by decide
  have h₁ : getVal (normalizeBusiness e) "business_email" = some JVal.null := by
    rcases habs with h | h | h
    · exact nb_business_null _ _ hfm (Or.inl h)
    · unfold normalizeBusiness
      rw [normField_ne _ _ _ (by decide), normField_ne _ _ _ (by decide)]
      rw [normField_eq_some _ _ _ h, if_neg (by simp)]
      exact h
    · exact nb_business_null _ _ hfm (Or.inr h)
  have h₂ : getVal (normalizeBusiness e) "biography" = some (JVal.str b) := by
    rw [nb_ne _ _ (by decide), hbio]
  have h₃ : truthyJ (getVal (normalizeBusiness e) "business_email") = false := by
    rw [h₁]
    rfl
  have hb := backfill_hit (normalizeBusiness e) b m h₃ h₂ hbne hsearch
  unfold finalizeEntry
  rw [hb, getVal_dropNulls_business _ _ hfm, getVal_setVal_self]

/-- C5 witness: a profile whose biography contains one plain address gets
it as business_email. -/
theorem email_backfill_first_match_witness :
    getVal (finalizeEntry (profileRaw urlProf udPlainBio)) "business_email" =
      some (JVal.str "a@b.co") :=
  email_backfill_first_match (profileRaw urlProf udPlainBio)
    "mail me at a@b.co ok" "a@b.co"
    (Or.inr (Or.inl (by decide))) (by decide) (by decide) (by decide)

/-- C1 counterexample: with meta likes_count 0 (non-null) and script
likes 7, the emitted likes_count is "7", not the "0" the first-non-null
rule predicts; and a captured network payload neither changes the entry
nor supplies the field when both page sources are null. -/
theorem article_fields_nonnull_priority_cex :
    formatCount (some 0) = some "0" ∧
    getVal (finalizeEntry (articleRaw urlPost "article" dZeroLikes)) "likes_count" =
      some (JVal.str "7") ∧
    getVal (finalizeEntry (articleRaw urlPost "article" dZeroLikes)) "likes_count" ≠
      some (JVal.str "0") ∧
    finalizeEntry (articleRaw urlPost "article" dZeroLikesResp) =
      finalizeEntry (articleRaw urlPost "article" dZeroLikes) ∧
    getVal (finalizeEntry (articleRaw urlPost "article" dEmpty)) "likes_count" = none := by
  refine ⟨by decide, by decide, by decide, by decide, by decide⟩

/-- C1 (amended): in every article/video entry each field takes the
meta-tag value when truthy and otherwise the embedded-script value as
Python or evaluates it (username also tries the meta title username,
post_date comes from the meta tags alone), a null outcome omits the
field, and the captured network payloads are never consulted by the
builder. -/
theorem article_fields_first_truthy (url ct : String) (d : Extracted) (rs : List String) :
    getVal (finalizeEntry (articleRaw url ct d)) "likes_count" =
      keepStr (formatCount (orInt d.meta_data.likes_count d.script_data.likes)) ∧
    getVal (finalizeEntry (articleRaw url ct d)) "comments_count" =
      keepStr (formatCount (orInt d.meta_data.comments_count d.script_data.comments)) ∧
    getVal (finalizeEntry (articleRaw url ct d)) "username" = keepStr (resolvedU d) ∧
    getVal (finalizeEntry (articleRaw url ct d)) "post_date" =
      keepStr d.meta_data.post_date ∧
    getVal (finalizeEntry (articleRaw url ct d)) "caption" =
      keepStr (orStr d.meta_data.caption d.script_data.caption) ∧
    articleRaw url ct { d with captured_responses := rs } = articleRaw url ct d := by
  have he2 : backfillEmail (normalizeBusiness (articleRaw url ct d)) =
      [("url", JVal.str url), ("content_type", JVal.str ct),
       ("likes_count", optIntFmt (orInt d.meta_data.likes_count d.script_data.likes)),
       ("comments_count", optIntFmt (orInt d.meta_data.comments_count d.script_data.comments)),
       ("username", optStrJ (resolvedU d)),
       ("post_date", optStrJ d.meta_data.post_date),
       ("caption", optStrJ (orStr d.meta_data.caption d.script_data.caption)),
       ("business_email", JVal.null), ("business_phone_number", JVal.null),
       ("business_category_name", JVal.null)] := rfl
  have hnd : ((backfillEmail (normalizeBusiness (articleRaw url ct d))).map Prod.fst).Nodup := by
    rw [he2]
    show (["url", "content_type", "likes_count", "comments_count", "username",
      "post_date", "caption", "business_email", "business_phone_number",
      "business_category_name"] : List String).Nodup
    decide
  refine ⟨?_, ?_, ?_, ?_, ?_, rfl⟩
  · show getVal (dropNulls (backfillEmail (normalizeBusiness (articleRaw url ct d))))
      "likes_count" = _
    exact dropNulls_keepFmt _ _ _ (by decide) hnd (by rw [he2]; rfl)
  · show getVal (dropNulls (backfillEmail (normalizeBusiness (articleRaw url ct d))))
      "comments_count" = _
    exact dropNulls_keepFmt _ _ _ (by decide) hnd (by rw [he2]; rfl)
  · show getVal (dropNulls (backfillEmail (normalizeBusiness (articleRaw url ct d))))
      "username" = _
    exact dropNulls_keepStr _ _ _ (by decide) hnd (by rw [he2]; rfl)
  · show getVal (dropNulls (backfillEmail (normalizeBusiness (articleRaw url ct d))))
      "post_date" = _
    exact dropNulls_keepStr _ _ _ (by decide) hnd (by rw [he2]; rfl)
  · show getVal (dropNulls (backfillEmail (normalizeBusiness (articleRaw url ct d))))
      "caption" = _
    exact dropNulls_keepStr _ _ _ (by decide) hnd (by rw [he2]; rfl)
